import Mathlib

/-!
Verification development for the server-crash monitoring dashboard.

The TypeScript sources are shallowly embedded: JavaScript strings are
modelled either as Lean `String`s or as `List Char` (character sequences),
JavaScript numbers appearing in exact integer/rational arithmetic are
modelled as `Nat`/`Int`/`ℚ`, and the module-level mutable state of each
API route is modelled as an explicit state record threaded through the
embedded functions.  `setTimeout` callbacks are modelled as explicit
scheduled-transition values which a driver later fires.
-/

/-- `leadsWith pat s` holds when the character list `pat` is an initial
segment of `s` (helper for the JavaScript `String.prototype.includes`
embedding). -/
def leadsWith : List Char → List Char → Bool
  | [], _ => true
  | _ :: _, [] => false
  | a :: as, b :: bs => a == b && leadsWith as bs

/-- `containsSeq pat s` holds when `pat` occurs contiguously inside `s`
(JavaScript `s.includes(pat)` on character lists). -/
def containsSeq (pat : List Char) : List Char → Bool
  | [] => leadsWith pat []
  | c :: rest => leadsWith pat (c :: rest) || containsSeq pat rest

/-- Embedding of the JavaScript `message.includes(pattern)` test used
throughout the dashboard and the log classifier (case-sensitive substring
containment). -/
def includes (s pat : String) : Bool := containsSeq pat.data s.data

namespace LogsStream

/-- Embedding of JavaScript `String.prototype.split('\n')` on character
lists: splits at every newline, keeping empty fragments (so a trailing
newline yields a trailing empty fragment). -/
def splitLines : List Char → List (List Char)
  | [] => [[]]
  | c :: rest =>
    if c = '\n' then [] :: splitLines rest
    else
      match splitLines rest with
      | r :: rs => (c :: r) :: rs
      | [] => [[c]]

/-- A fragment is blank when it contains only whitespace; JavaScript
`line.trim()` is falsy exactly on such fragments. -/
def isBlank (l : List Char) : Bool := l.all Char.isWhitespace

/-- The per-chunk handler of the streaming endpoint
(`src/app/api/logs/stream/route.ts`, stdout/stderr `data` handlers):
`data.toString().split('\n').filter(line => line.trim())`.
Each chunk is split on newlines independently and whitespace-only
fragments are discarded; the kept fragments are emitted untrimmed. -/
def chunkLines (chunk : List Char) : List (List Char) :=
  (splitLines chunk).filter (fun l => !isBlank l)

/-- The framed lines emitted for a whole sequence of byte chunks: the
`data` handler runs once per chunk, with no buffering carried across
chunks. -/
def framedLines (chunks : List (List Char)) : List (List Char) :=
  (chunks.map chunkLines).flatten

/-- The original byte stream: concatenation of the received chunks. -/
def streamBytes (chunks : List (List Char)) : List Char := chunks.flatten

/-- Reinsert newlines between framed lines (the round-trip reading of the
spec, with a newline after every line). -/
def rejoinTerminated (lines : List (List Char)) : List Char :=
  (lines.map (· ++ ['\n'])).flatten

/-- Reinsert newlines between framed lines (the round-trip reading of the
spec, with newlines only between lines). -/
def rejoinSeparated (lines : List (List Char)) : List Char :=
  List.intercalate ['\n'] lines

end LogsStream

namespace CrashTest

/-- One entry of the fixed crash schedule of
`src/app/api/crash-test/route.ts` (`crashSchedule`). -/
structure CrashMilestone where
  time : Nat
  method : String
  description : String
deriving DecidableEq, Repr

/-- The fixed milestone schedule from the `status` action of the
crash-test route. -/
def crashSchedule : List CrashMilestone :=
  [⟨15, "stop", "PM2 Stop"⟩, ⟨60, "kill", "Process Kill"⟩, ⟨120, "stop", "PM2 Stop"⟩]

/-- The body of the `for (const crash of crashSchedule)` loop of the
`status` action: a completed milestone (elapsed ≥ time) is appended to
`completedCrashes`, otherwise the milestone becomes `nextCrash` if none
was picked yet. -/
def crashStep (elapsed : Nat) (acc : List CrashMilestone × Option CrashMilestone)
    (crash : CrashMilestone) : List CrashMilestone × Option CrashMilestone :=
  if elapsed ≥ crash.time then (acc.1 ++ [crash], acc.2)
  else if acc.2.isNone then (acc.1, some crash)
  else acc

/-- The `for (const crash of crashSchedule)` loop of the `status` action:
accumulates `completedCrashes` and picks `nextCrash`. -/
def crashLoop (elapsed : Nat) (schedule : List CrashMilestone) :
    List CrashMilestone × Option CrashMilestone :=
  schedule.foldl (crashStep elapsed) ([], none)

/-- The schedule-derived part of the crash-test `status` response:
completed milestones, next milestone, and `timeUntil = nextCrash.time -
elapsedTime` for the next milestone. -/
structure CrashStatusData where
  completedCrashes : List CrashMilestone
  nextCrash : Option CrashMilestone
  nextTimeUntil : Option Int
deriving DecidableEq, Repr

/-- The pure milestone arithmetic of the crash-test `status` action,
computed from elapsed seconds alone. -/
def crashStatus (elapsed : Nat) : CrashStatusData :=
  let r := crashLoop elapsed crashSchedule
  ⟨r.1, r.2, r.2.map (fun c => (c.time : Int) - (elapsed : Int))⟩

end CrashTest

namespace Dashboard

/-- The `status` union of the `AgentStatus` interface in
`src/components/AgentWorkflowDashboard.tsx`:
`'idle' | 'working' | 'completed' | 'error'`. -/
inductive Status where
  | idle
  | working
  | completed
  | error
deriving DecidableEq, Repr

/-- The `AgentStatus` interface of the dashboard component. -/
structure AgentStatus where
  id : String
  name : String
  status : Status
  currentTask : Option String
  lastUpdate : Option String
  output : List String
deriving DecidableEq, Repr

/-- `Partial<AgentStatus>`: the update object passed to
`updateAgentStatus`; each field is either present or absent. -/
structure AgentUpdates where
  id : Option String := none
  name : Option String := none
  status : Option Status := none
  currentTask : Option String := none
  lastUpdate : Option String := none
  output : Option (List String) := none
deriving DecidableEq, Repr

/-- The spread merge `{ ...agent, ...updates, lastUpdate: new
Date().toISOString() }`: present update fields override the agent's
fields, and `lastUpdate` is always stamped with the current time. -/
def applyUpdates (a : AgentStatus) (u : AgentUpdates) (now : String) : AgentStatus where
  id := u.id.getD a.id
  name := u.name.getD a.name
  status := u.status.getD a.status
  currentTask := match u.currentTask with
    | some t => some t
    | none => a.currentTask
  lastUpdate := some now
  output := u.output.getD a.output

/-- `updateAgentStatus(agentId, updates)`: maps over the agents list,
merging `updates` (plus a fresh `lastUpdate`) into the entry whose `id`
matches and leaving every other entry untouched. -/
def updateAgentStatus (agents : List AgentStatus) (agentId : String)
    (u : AgentUpdates) (now : String) : List AgentStatus :=
  agents.map (fun agent =>
    if agent.id = agentId then applyUpdates agent u now else agent)

/-- The initial `useState` value of `agents`: the three fixed roles, idle,
with their role-specific idle tasks. -/
def initialAgents : List AgentStatus :=
  [⟨"supervisor", "Supervisor Agent", .idle, some "Monitoring server health...", none, []⟩,
   ⟨"executor", "Executor Agent", .idle, some "Awaiting repair instructions...", none, []⟩,
   ⟨"evaluator", "Evaluator Agent", .idle, some "Ready to verify repairs...", none, []⟩]

/-- `getIdleTask`: the role-specific idle task texts. -/
def getIdleTask (agentId : String) : String :=
  if agentId = "supervisor" then "Monitoring server health..."
  else if agentId = "executor" then "Awaiting repair instructions..."
  else if agentId = "evaluator" then "Ready to verify repairs..."
  else "Idle"

/-- The `serverStatus` union: `'up' | 'down' | 'unknown'`. -/
inductive ServerStatus where
  | up
  | down
  | unknown
deriving DecidableEq, Repr

/-- The `ServerLog` interface (level and message; the agent tag is
optional). -/
structure ServerLog where
  timestamp : String
  level : String
  message : String
  agent : Option String
deriving DecidableEq, Repr

/-- The dashboard component state touched by the raw-message detector:
the agents list, the server status, the current workflow marker, and the
server-log buffer. -/
structure DashState where
  agents : List AgentStatus
  serverStatus : ServerStatus
  currentWorkflow : Option String
  serverLogs : List ServerLog
deriving DecidableEq, Repr

/-- The initial dashboard state (`useState` initial values). -/
def initialState : DashState :=
  ⟨initialAgents, .unknown, none, []⟩

/-- `addServerLog`: appends a log entry, keeping the last 50 previous
entries (`prev.slice(-50)` followed by the new entry). -/
def addServerLog (s : DashState) (level message : String)
    (agent : Option String) (now : String) : DashState :=
  { s with serverLogs := (s.serverLogs.drop (s.serverLogs.length - 50)) ++
      [⟨now, level, message, agent⟩] }

/-- The `setTimeout` callbacks scheduled by `detectAgentFromRawMessage`,
as explicit delayed transitions:
`prepareExecutor` (1.5s after a DOWN diagnosis), `completeExecutor`
(1s after a verification line), `workflowComplete` (1.5s after a terminal
success line) and `workflowReset` (a further 2s later). -/
inductive Delayed where
  | prepareExecutor
  | completeExecutor
  | workflowComplete
  | workflowReset
deriving DecidableEq, Repr

/-- `detectAgentFromRawMessage`: classifies a raw output line through the
ordered `includes` branches of the source and applies the immediate state
updates, returning the scheduled delayed transitions. -/
def detectAgentFromRawMessage (now message : String) (s : DashState) :
    DashState × List Delayed :=
  if includes message "🤖" && includes message "STARTING" then
    let u : AgentUpdates := { status := some .working, currentTask := some "Initializing monitoring cycle..." }
    let s1 := { s with currentWorkflow := some "Continuous monitoring initiated" }
    ({ s1 with agents := updateAgentStatus s1.agents "supervisor" u now }, [])
  else if includes message "Supervisor:" || includes message "Starting monitoring cycle"
      || includes message "Analyzing" then
    let u : AgentUpdates := { status := some .working, currentTask := some "Analyzing server health..." }
    ({ s with agents := updateAgentStatus s.agents "supervisor" u now }, [])
  else if includes message "LLM diagnosis:" || includes message "confidence:" then
    let task := if includes message "DOWN" then "🚨 Server DOWN detected!"
      else "✅ Server UP confirmed"
    let u : AgentUpdates := { status := some .working, currentTask := some task }
    let s1 := { s with agents := updateAgentStatus s.agents "supervisor" u now }
    if includes message "DOWN" then
      ({ s1 with serverStatus := .down }, [.prepareExecutor])
    else if includes message "UP" then
      ({ s1 with serverStatus := .up }, [])
    else (s1, [])
  else if includes message "Executor:" || includes message "PM2"
      || includes message "restart" || includes message "repair" then
    let task := if includes message "success" then "✅ Repair completed!"
      else "🔧 Executing repair..."
    let u1 : AgentUpdates := { status := some .working, currentTask := some task }
    let u2 : AgentUpdates := { status := some .completed, currentTask := some "Analysis complete - repair needed" }
    let s1 := { s with agents := updateAgentStatus s.agents "executor" u1 now }
    ({ s1 with agents := updateAgentStatus s1.agents "supervisor" u2 now }, [])
  else if includes message "POST-REPAIR" || includes message "Verification"
      || includes message "Testing endpoint" then
    let u : AgentUpdates := { status := some .working, currentTask := some "Verifying repair success..." }
    ({ s with agents := updateAgentStatus s.agents "evaluator" u now }, [.completeExecutor])
  else if includes message "PASSED" || includes message "Flashcard created"
      || includes message "SUMMARY" then
    let u : AgentUpdates := { status := some .completed, currentTask := some "✅ Verification complete!" }
    ({ s with agents := updateAgentStatus s.agents "evaluator" u now }, [.workflowComplete])
  else if includes message "💥" || includes message "CRASH"
      || includes message "Stopping server" then
    ({ addServerLog s "warn" ("💥 " ++ message) none now with serverStatus := .down }, [])
  else if includes message "Agent PID:" || includes message "monitoring started" then
    (addServerLog s "success" ("✅ " ++ message) none now, [])
  else (s, [])

/-- Fires one scheduled delayed transition, returning any transitions it
schedules in turn (`workflowComplete` schedules the nested 2s reset). -/
def runDelayed (now : String) (d : Delayed) (s : DashState) :
    DashState × List Delayed :=
  match d with
  | .prepareExecutor =>
    let u : AgentUpdates := { status := some .working, currentTask := some "Preparing repair strategy..." }
    ({ s with agents := updateAgentStatus s.agents "executor" u now }, [])
  | .completeExecutor =>
    let u : AgentUpdates := { status := some .completed, currentTask := some "Repair execution complete" }
    ({ s with agents := updateAgentStatus s.agents "executor" u now }, [])
  | .workflowComplete =>
    ({ s with currentWorkflow := some "Monitoring cycle complete" }, [.workflowReset])
  | .workflowReset =>
    let reset := s.agents.map (fun a =>
      { a with status := Status.idle, currentTask := some (getIdleTask a.id) })
    ({ s with currentWorkflow := none, agents := reset }, [])

end Dashboard

namespace Dashboard

/-- Fires a queue of scheduled transitions in order (fuel-bounded;
transitions scheduled by a firing are appended to the queue), recording
the state after each firing. -/
def fireQueue (now : String) : Nat → DashState → List Delayed → List DashState
  | 0, _, _ => []
  | _, _, [] => []
  | fuel + 1, s, d :: ds =>
    let r := runDelayed now d s
    r.1 :: fireQueue now fuel r.1 (ds ++ r.2)

/-- Feeds raw lines to `detectAgentFromRawMessage` one at a time, letting
every scheduled delayed transition fire before the next line arrives, and
records the state after each line and after each delayed firing. -/
def runLines (now : String) (s : DashState) : List String → List DashState
  | [] => []
  | m :: ms =>
    let r := detectAgentFromRawMessage now m s
    let fired := fireQueue now 16 r.1 r.2
    let last := fired.getLastD r.1
    (r.1 :: fired) ++ runLines now last ms

/-- The four raw lines of the end-to-end workflow scenario. -/
def scenarioLines : List String :=
  ["LLM diagnosis: DOWN confidence: 0.92",
   "Executor: running PM2 restart",
   "POST-REPAIR Verification passed",
   "MONITORING CYCLE SUMMARY PASSED"]

/-- The full state trace of the scenario: the initial state followed by
the state after every line and every delayed firing. -/
def scenarioTrace : List DashState :=
  initialState :: runLines "T" initialState scenarioLines

/-- The status of the agent with the given id in a dashboard state. -/
def agentStatusOf (s : DashState) (agentId : String) : Option Status :=
  (s.agents.find? (fun a => a.id = agentId)).map (·.status)

/-- One externally triggered mutation of the dashboard state: a raw
streamed line (classified transition), the firing of one scheduled
delayed transition, or the reset performed by `handleStopMonitoring`. -/
inductive DashOp where
  | raw (now message : String)
  | delayed (now : String) (d : Delayed)
  | stopReset

/-- Applies one mutation to the dashboard state. -/
def applyOp (s : DashState) : DashOp → DashState
  | .raw now message => (detectAgentFromRawMessage now message s).1
  | .delayed now d => (runDelayed now d s).1
  | .stopReset =>
    let reset := s.agents.map (fun a =>
      { a with status := Status.idle, currentTask := some (getIdleTask a.id) })
    { s with currentWorkflow := none, agents := reset }

/-- Applies a sequence of mutations starting from a given state; the
states reachable from `initialState` are exactly the results of
`runOps initialState ops`. -/
def runOps (s : DashState) (ops : List DashOp) : DashState :=
  ops.foldl applyOp s

end Dashboard

namespace LogsStream

/-- A character matched by the regex class `[\d.]`. -/
def isDigitOrDot (c : Char) : Bool := c.isDigit || c = '.'

/-- First match of the regex `/(UP|DOWN)/`: scans left to right, trying
the alternatives in order at each position. -/
def findUpDown : List Char → Option String
  | [] => none
  | c :: rest =>
    if leadsWith "UP".data (c :: rest) then some "UP"
    else if leadsWith "DOWN".data (c :: rest) then some "DOWN"
    else findUpDown rest

/-- First capture of the regex `/confidence: ([\d.]+)/`: finds the
leftmost occurrence of the literal `confidence: ` followed by at least
one `[\d.]` character and captures the maximal such run (the source then
applies `parseFloat` to this capture, a pure function of it). -/
def findConfidenceCapture : List Char → Option String
  | [] => none
  | c :: rest =>
    if leadsWith "confidence: ".data (c :: rest) then
      let run := ((c :: rest).drop "confidence: ".data.length).takeWhile isDigitOrDot
      if run.isEmpty then findConfidenceCapture rest else some (String.mk run)
    else findConfidenceCapture rest

/-- The object built by `parseAgentLog`; `confidence` holds the raw regex
capture (the source stores `parseFloat` of it, with `0` when there is no
capture), and `status` holds the `UP`/`DOWN` match defaulting to
`UNKNOWN`. -/
structure ParsedLog where
  agent : String
  type : String
  message : String
  status : Option String := none
  confidence : Option String := none
  timestamp : String
  level : String
deriving DecidableEq, Repr

/-- `parseAgentLog(line)` from `src/app/api/logs/stream/route.ts`: the
ordered keyword classifier.  The wall-clock reads `new
Date().toISOString()` are modelled by the explicit `now` argument; the
surrounding `try`/`catch` is not modelled because no expression in the
body can throw. -/
def parseAgentLog (now line : String) : Option ParsedLog :=
  if includes line "Supervisor diagnosis:" then
    some { agent := "supervisor", type := "diagnosis", message := line,
           status := some ((findUpDown line.data).getD "UNKNOWN"),
           confidence := findConfidenceCapture line.data,
           timestamp := now, level := "info" }
  else if includes line "Executor:" || includes line "PM2" || includes line "restart" then
    some { agent := "executor", type := "repair", message := line,
           timestamp := now,
           level := if includes line "success" then "success" else "info" }
  else if includes line "Evaluator:" || includes line "Flashcard written" then
    some { agent := "evaluator", type := "evaluation", message := line,
           timestamp := now, level := "success" }
  else if includes line "Starting monitoring cycle"
      || includes line "MONITORING CYCLE SUMMARY"
      || includes line "Server is DOWN"
      || includes line "Server appears to be UP" then
    some { agent := "system", type := "workflow", message := line,
           timestamp := now,
           level := if includes line "DOWN" then "warn" else "info" }
  else if includes line "LLM diagnosis:" then
    some { agent := "supervisor", type := "llm_diagnosis", message := line,
           timestamp := now, level := "info" }
  else if includes line "ERROR" || includes line "Failed" then
    some { agent := "system", type := "error", message := line,
           timestamp := now, level := "error" }
  else if line.trim ≠ "" then
    some { agent := "system", type := "general", message := line,
           timestamp := now, level := "info" }
  else none

/-- Erases the capture timestamp of a parsed event (the only field of
`parseAgentLog`'s result that depends on the call time). -/
def dropTimestamp (p : ParsedLog) : ParsedLog := { p with timestamp := "" }

end LogsStream

namespace Monitoring

/-- The supervised-process handle of `src/app/api/monitoring/route.ts`
(`monitoringProcess`): its pid and the Node `killed` flag, which becomes
true once a kill call has successfully delivered a signal to the
process (it does not track whether the process is still alive). -/
structure ProcHandle where
  pid : Nat
  killed : Bool
deriving DecidableEq, Repr

/-- The module-level mutable state of the monitoring route:
`isMonitoring` and `monitoringProcess` (the `processStartTime` string is
irrelevant to the claims and omitted). -/
structure MonState where
  isMonitoring : Bool
  monitoringProcess : Option ProcHandle
deriving DecidableEq, Repr

/-- The uniform `{success, error}` envelope returned by the control
surface, extended with the list of pids spawned and the signals sent
during the call. -/
structure ControlOutcome where
  success : Bool
  errorMsg : Option String := none
  spawned : List Nat := []
  signals : List String := []
deriving DecidableEq, Repr

/-- `startMonitoring()`: fails when `isMonitoring` is already set;
otherwise spawns the subprocess (modelled by `spawnResult`, the pid of
the spawned process or `none` when the spawn throws, in which case the
`catch` clears both state variables). -/
def startMonitoring (spawnResult : Option Nat) (s : MonState) :
    MonState × ControlOutcome :=
  if s.isMonitoring then
    (s, { success := false, errorMsg := some "Monitoring is already running" })
  else
    match spawnResult with
    | some pid =>
      (⟨true, some ⟨pid, false⟩⟩, { success := true, spawned := [pid] })
    | none =>
      (⟨false, none⟩, { success := false, errorMsg := some "Failed to start monitoring process" })

/-- Environment of one `stopMonitoring()` call: whether the `SIGTERM`
kill call delivers its signal (setting the handle's `killed` flag),
whether the subprocess is in fact still alive once the 2-second grace
window has elapsed (the source never consults this), and whether some
call inside the `try` block throws (exercising the `catch` path of the
source). -/
structure StopEnv where
  termDelivered : Bool
  stillAlive : Bool
  killSeqThrows : Bool
deriving DecidableEq, Repr

/-- `stopMonitoring()`: fails with the NotRunning error when
`isMonitoring` is false or no handle exists; otherwise sends `SIGTERM`,
waits the fixed 2-second window, sends `SIGKILL` only when the handle's
`killed` flag is still false, and clears both state variables — except on
the `catch` path, which returns a failure response without touching the
state. -/
def stopMonitoring (env : StopEnv) (s : MonState) : MonState × ControlOutcome :=
  match s.isMonitoring, s.monitoringProcess with
  | false, _ =>
    (s, { success := false, errorMsg := some "Monitoring is not running" })
  | true, none =>
    (s, { success := false, errorMsg := some "Monitoring is not running" })
  | true, some p =>
    if env.killSeqThrows then
      (s, { success := false, errorMsg := some "Failed to stop monitoring process" })
    else
      let killedAfterTerm := p.killed || env.termDelivered
      let sigs := if killedAfterTerm then ["SIGTERM"] else ["SIGTERM", "SIGKILL"]
      (⟨false, none⟩, { success := true, signals := sigs })

end Monitoring

namespace CrashTest

/-- The module-level mutable state of `src/app/api/crash-test/route.ts`:
`activeTestProcess` and `testStartTime`. -/
structure CrashState where
  activeTestProcess : Option Monitoring.ProcHandle
  testStartTime : Option Int
deriving DecidableEq, Repr

/-- The `start` action of the crash-test route: if a test process already
exists it is sent `SIGTERM` and discarded, then a fresh process is always
spawned and a success response returned (there is no AlreadyRunning
branch). -/
def crashTestStart (pid : Nat) (now : Int) (s : CrashState) :
    CrashState × Monitoring.ControlOutcome :=
  let termSignals := match s.activeTestProcess with
    | some _ => ["SIGTERM"]
    | none => []
  (⟨some ⟨pid, false⟩, some now⟩,
   { success := true, spawned := [pid], signals := termSignals })

end CrashTest

namespace Stats

/-- The `'UP' | 'DOWN' | 'UNKNOWN'` union of `src/types/index.ts`. -/
inductive DiagStatus where
  | UP
  | DOWN
  | UNKNOWN
deriving DecidableEq, Repr

/-- The `Diagnosis` interface; JavaScript numbers are modelled as exact
rationals. -/
structure Diagnosis where
  status : DiagStatus
  reason : String
  detailed_diagnosis : Option String
  confidence : ℚ
deriving DecidableEq, Repr

/-- The `Action` interface. -/
structure ActionRecord where
  repair_attempted : Bool
  repair_action : String
  repair_success : Bool
  repair_output : String
deriving DecidableEq, Repr

/-- The `Verification` interface. -/
structure VerificationRecord where
  verified : Bool
  verification_response : String
  post_repair_status : DiagStatus
deriving DecidableEq, Repr

/-- The `Metadata` interface. -/
structure Metadata where
  nginx_logs_length : Nat
  health_check_successful : Bool
  workflow_completed : Bool
deriving DecidableEq, Repr

/-- The `FlashcardIncident` interface; `detected_at` is modelled as the
epoch-millisecond value that `new Date(detected_at).getTime()` yields for
the stored string. -/
structure FlashcardIncident where
  detected_at : Int
  diagnosis : Diagnosis
  action : ActionRecord
  verification : VerificationRecord
  metadata : Metadata
deriving DecidableEq, Repr

/-- One nonempty line of the record file as seen by `JSON.parse`: `some
record` when the line is well-formed, `none` when it is malformed (the
parse throws). -/
abbrev RecordLine := Option FlashcardIncident

/-- `lines.map(line => JSON.parse(line))`: parsing stops at the first
malformed line and the exception aborts the whole read — there is never a
partially parsed result. -/
def parseAll : List RecordLine → Option (List FlashcardIncident)
  | [] => some []
  | none :: _ => none
  | some r :: rest => (parseAll rest).map (r :: ·)

/-- The sort comparator of the incidents route,
`(a, b) => new Date(b.detected_at).getTime() - new Date(a.detected_at).getTime()`:
orders by `detected_at` descending. -/
def detectedDesc (a b : FlashcardIncident) : Prop := b.detected_at ≤ a.detected_at

instance : DecidableRel detectedDesc := fun a b => by
  unfold detectedDesc; infer_instance

instance : IsTotal FlashcardIncident detectedDesc :=
  ⟨fun a b => le_total b.detected_at a.detected_at⟩

instance : IsTrans FlashcardIncident detectedDesc :=
  ⟨fun _ _ _ h1 h2 => le_trans h2 h1⟩

/-- `.sort(...)` on the parsed incidents, descending by `detected_at`. -/
def sortIncidents (l : List FlashcardIncident) : List FlashcardIncident :=
  l.insertionSort detectedDesc

/-- The JSON envelope of the incidents route. -/
structure IncidentsResponse where
  success : Bool
  data : List FlashcardIncident
  count : Nat
  errorMsg : Option String
deriving DecidableEq, Repr

/-- The incident record file as the reads see it: `none` when the file is
missing (`readFile` throws), otherwise the nonempty lines left by
`.trim().split('\n').filter(line => line.length > 0)`, each as its
`JSON.parse` outcome. -/
abbrev RecordFile := Option (List RecordLine)

/-- `GET /api/incidents` (`src/app/api/incidents/route.ts`): a missing
file or a malformed line lands in the `catch`, which answers with
`success: false` and empty `data`; otherwise the fully parsed records are
returned sorted by `detected_at` descending. -/
def incidentsGET (file : RecordFile) : IncidentsResponse :=
  match file with
  | none => ⟨false, [], 0, some "Failed to read incident history"⟩
  | some lines =>
    match parseAll lines with
    | none => ⟨false, [], 0, some "Failed to read incident history"⟩
    | some records =>
      let sorted := sortIncidents records
      ⟨true, sorted, sorted.length, none⟩

/-- `readIncidents()` (`src/app/api/stats/route.ts`): its own
`try`/`catch` turns a missing file *and* any parse failure into the empty
record list, with no error reported. -/
def readIncidents (file : RecordFile) : List FlashcardIncident :=
  match file with
  | none => []
  | some lines =>
    match parseAll lines with
    | none => []
    | some records => records

/-- The `SystemStats` interface of `src/types/index.ts`. -/
structure SystemStats where
  uptimePercentage : ℚ
  averageRepairTime : ℚ
  incidentsLast24h : Nat
  averageConfidence : ℚ
deriving DecidableEq, Repr

/-- `calculateStats(incidents)`; `now` is the epoch-millisecond value of
`new Date()` and `detected_at` comparisons follow the source's
`new Date(incident.detected_at) >= oneDayAgo`. -/
def calculateStats (now : Int) (incidents : List FlashcardIncident) : SystemStats :=
  if incidents.length = 0 then
    ⟨100, 0, 0, 0⟩
  else
    let oneDayAgo := now - 24 * 60 * 60 * 1000
    let incidentsLast24h :=
      (incidents.filter (fun i => oneDayAgo ≤ i.detected_at)).length
    let downIncidents := incidents.filter (fun i => i.diagnosis.status = DiagStatus.DOWN)
    let totalDowntimeMinutes : ℚ := downIncidents.length * 1
    let totalPeriodMinutes : ℚ := 30 * 24 * 60
    let uptimePercentage := max 0 (100 - totalDowntimeMinutes / totalPeriodMinutes * 100)
    let repairedIncidents := incidents.filter
      (fun i => i.action.repair_attempted && i.action.repair_success)
    let averageRepairTime : ℚ :=
      if 0 < repairedIncidents.length then
        (repairedIncidents.foldl (fun sum i => sum + (1 - i.diagnosis.confidence) * 30) 0)
          / repairedIncidents.length
      else 0
    let averageConfidence : ℚ :=
      if 0 < incidents.length then
        (incidents.foldl (fun sum i => sum + i.diagnosis.confidence) 0) / incidents.length
      else 0
    ⟨uptimePercentage, averageRepairTime, incidentsLast24h, averageConfidence⟩

/-- The JSON envelope of the stats route. -/
structure StatsResponse where
  success : Bool
  data : SystemStats
  errorMsg : Option String
deriving DecidableEq, Repr

/-- `GET /api/stats`: `readIncidents` swallows every file error
internally, and `calculateStats` is total, so the surrounding `catch` is
unreachable and the route always answers with `success: true`. -/
def statsGET (now : Int) (file : RecordFile) : StatsResponse :=
  ⟨true, calculateStats now (readIncidents file), none⟩

end Stats

namespace LogsStream

/-- Specification-side description of a well-formed chunk: a sequence of
newline-terminated fragments, each neither blank nor containing a
newline.  Chunks of this shape are the only ones the per-chunk splitter
frames losslessly. -/
def goodChunk (c : List Char) : Prop :=
  ∃ ls : List (List Char),
    c = rejoinTerminated ls ∧ ∀ l ∈ ls, ¬ isBlank l ∧ '\n' ∉ l

end LogsStream

namespace Stats

/-- Specification-side description of a fully successful read of the
record file: `some records` exactly when the file exists and every line
parses. -/
def fullParse (file : RecordFile) : Option (List FlashcardIncident) :=
  file.bind parseAll

end Stats

/-!
## Claim theorems
-/

/-- C9: `calculateStats` applied to the empty record list returns exactly
the neutral baseline — uptime percentage 100, average repair time 0,
incidents in the last 24 hours 0, and average confidence 0 — whatever the
current wall-clock time is. -/
theorem calculateStats_empty_baseline (now : Int) :
    Stats.calculateStats now [] = ⟨100, 0, 0, 0⟩ := rfl

/-- C7 counterexample: two invocations of the classifier on the same line
at different wall-clock times produce events that are *not* identical in
every field — the capture timestamp field differs. -/
theorem parseAgentLog_call_time_leaks :
    LogsStream.parseAgentLog "2024-01-01T00:00:00.000Z" "Executor: restart attempt"
      ≠ LogsStream.parseAgentLog "2024-01-01T00:00:01.000Z" "Executor: restart attempt" := by
  decide

/-- C7 amended: the classifier is deterministic in every field except the
capture timestamp — for every input line, any two invocations produce
events that agree on agent, type, message, status, confidence and level
(or both produce no event), regardless of when they are called. -/
theorem parseAgentLog_deterministic_mod_timestamp (t1 t2 line : String) :
    (LogsStream.parseAgentLog t1 line).map LogsStream.dropTimestamp =
      (LogsStream.parseAgentLog t2 line).map LogsStream.dropTimestamp := by
  unfold LogsStream.parseAgentLog
  split_ifs <;> simp [LogsStream.dropTimestamp]

/-- C3 counterexample: calling the crash-test supervisor's start twice in
immediate succession spawns two subprocesses, and the second call answers
success with no error rather than AlreadyRunning. -/
theorem crash_start_twice_spawns_twice :
    (CrashTest.crashTestStart 12 200 (CrashTest.crashTestStart 11 100 ⟨none, none⟩).1).2.success
        = true ∧
    (CrashTest.crashTestStart 12 200 (CrashTest.crashTestStart 11 100 ⟨none, none⟩).1).2.errorMsg
        = none ∧
    (CrashTest.crashTestStart 11 100 ⟨none, none⟩).2.spawned ++
        (CrashTest.crashTestStart 12 200 (CrashTest.crashTestStart 11 100 ⟨none, none⟩).1).2.spawned
      = [11, 12] := by
  decide

/-- C3 amended: the monitoring supervisor's start fails with the
AlreadyRunning error and spawns nothing whenever monitoring is already
running — so two immediate calls spawn exactly one subprocess — while the
crash-test supervisor's start never reports AlreadyRunning: it terminates
any existing test process with `SIGTERM` and always spawns a fresh one,
returning success. -/
theorem supervisor_start_contract :
    (∀ (s : Monitoring.MonState) (spawnResult : Option Nat), s.isMonitoring = true →
        Monitoring.startMonitoring spawnResult s =
          (s, { success := false, errorMsg := some "Monitoring is already running" })) ∧
    (∀ p1 p2 : Nat,
        (Monitoring.startMonitoring (some p1) ⟨false, none⟩).2.spawned ++
            (Monitoring.startMonitoring (some p2)
              (Monitoring.startMonitoring (some p1) ⟨false, none⟩).1).2.spawned = [p1] ∧
        (Monitoring.startMonitoring (some p2)
            (Monitoring.startMonitoring (some p1) ⟨false, none⟩).1).2.errorMsg =
          some "Monitoring is already running") ∧
    (∀ (s : CrashTest.CrashState) (pid : Nat) (now : Int),
        (CrashTest.crashTestStart pid now s).2.success = true ∧
        (CrashTest.crashTestStart pid now s).2.spawned = [pid] ∧
        (CrashTest.crashTestStart pid now s).2.signals =
          (if s.activeTestProcess.isSome then ["SIGTERM"] else [])) := by
  refine ⟨?_, ?_, ?_⟩
  · intro s spawnResult h
    simp [Monitoring.startMonitoring, h]
  · intro p1 p2
    simp [Monitoring.startMonitoring]
  · intro s pid now
    cases h : s.activeTestProcess <;> simp [CrashTest.crashTestStart, h]

/-- C3 amended, witness: a second monitoring start while running fails
with AlreadyRunning and spawns nothing. -/
theorem supervisor_start_contract_w :
    Monitoring.startMonitoring (some 9) ⟨true, some ⟨7, false⟩⟩ =
      (⟨true, some ⟨7, false⟩⟩,
       { success := false, errorMsg := some "Monitoring is already running" }) :=
  supervisor_start_contract.1 ⟨true, some ⟨7, false⟩⟩ (some 9) rfl

/-- C4 counterexample: when a call inside the kill sequence throws, the
`catch` path returns a failure response with the handle still set —
the handle is not cleared on every execution path; and when the graceful
signal was delivered, no force kill is sent even if the subprocess is in
fact still alive after the grace window. -/
theorem stop_monitoring_divergences :
    (Monitoring.stopMonitoring ⟨true, true, true⟩ ⟨true, some ⟨42, false⟩⟩).1
        = ⟨true, some ⟨42, false⟩⟩ ∧
    (Monitoring.stopMonitoring ⟨true, true, true⟩ ⟨true, some ⟨42, false⟩⟩).2.success = false ∧
    (Monitoring.stopMonitoring ⟨true, true, false⟩ ⟨true, some ⟨42, false⟩⟩).2.signals
        = ["SIGTERM"] := by
  decide

/-- C4 amended: stop fails with NotRunning leaving the state unchanged
when monitoring is not running or no handle exists; otherwise, when
nothing throws, it sends `SIGTERM`, waits the 2-second window, sends
`SIGKILL` exactly when the graceful signal was not delivered (the
handle's `killed` flag — not the subprocess's actual liveness), and
clears the handle; when the kill sequence throws, a failure is returned
and the handle is left set. -/
theorem stop_monitoring_contract :
    (∀ (env : Monitoring.StopEnv) (s : Monitoring.MonState),
        s.isMonitoring = false ∨ s.monitoringProcess = none →
        Monitoring.stopMonitoring env s =
          (s, { success := false, errorMsg := some "Monitoring is not running" })) ∧
    (∀ (env : Monitoring.StopEnv) (s : Monitoring.MonState) (p : Monitoring.ProcHandle),
        s.isMonitoring = true → s.monitoringProcess = some p → env.killSeqThrows = false →
        (Monitoring.stopMonitoring env s).1 = ⟨false, none⟩ ∧
        (Monitoring.stopMonitoring env s).2.success = true ∧
        (Monitoring.stopMonitoring env s).2.signals =
          (if p.killed || env.termDelivered then ["SIGTERM"] else ["SIGTERM", "SIGKILL"])) ∧
    (∀ (env : Monitoring.StopEnv) (s : Monitoring.MonState) (p : Monitoring.ProcHandle),
        s.isMonitoring = true → s.monitoringProcess = some p → env.killSeqThrows = true →
        (Monitoring.stopMonitoring env s).1 = s ∧
        (Monitoring.stopMonitoring env s).2.success = false) := by
  refine ⟨?_, ?_, ?_⟩
  · rintro env ⟨m, proc⟩ (h | h)
    · subst h; rfl
    · subst h; cases m <;> rfl
  · intro env s p h1 h2 h3
    cases s
    subst h1 h2
    simp [Monitoring.stopMonitoring, h3]
  · intro env s p h1 h2 h3
    cases s
    subst h1 h2
    simp [Monitoring.stopMonitoring, h3]

/-- C4 amended, witness: a clean stop of a running supervisor whose
`SIGTERM` was not delivered clears the handle and force-kills. -/
theorem stop_monitoring_contract_w :
    (Monitoring.stopMonitoring ⟨false, true, false⟩ ⟨true, some ⟨42, false⟩⟩).1 = ⟨false, none⟩ ∧
    (Monitoring.stopMonitoring ⟨false, true, false⟩ ⟨true, some ⟨42, false⟩⟩).2.signals
        = ["SIGTERM", "SIGKILL"] := by
  have h := stop_monitoring_contract.2.1 ⟨false, true, false⟩ ⟨true, some ⟨42, false⟩⟩
    ⟨42, false⟩ rfl rfl rfl
  exact ⟨h.1, by simpa using h.2.2⟩

/-- C1: feeding the four scenario lines in order from the initial state,
letting every scheduled delayed transition fire: the server status
passes through exactly unknown then down; each of supervisor, executor
and evaluator passes through exactly idle, working, completed and back to
idle; the workflow marker is set at some point and is cleared by the end;
and in the final state all three agents are idle again. -/
theorem scenario_four_lines_full_cycle :
    (Dashboard.scenarioTrace.map (fun s => Dashboard.agentStatusOf s "supervisor")).destutter (· ≠ ·)
        = [some .idle, some .working, some .completed, some .idle] ∧
    (Dashboard.scenarioTrace.map (fun s => Dashboard.agentStatusOf s "executor")).destutter (· ≠ ·)
        = [some .idle, some .working, some .completed, some .idle] ∧
    (Dashboard.scenarioTrace.map (fun s => Dashboard.agentStatusOf s "evaluator")).destutter (· ≠ ·)
        = [some .idle, some .working, some .completed, some .idle] ∧
    (Dashboard.scenarioTrace.map (fun s => s.serverStatus)).destutter (· ≠ ·)
        = [.unknown, .down] ∧
    Dashboard.scenarioTrace.any (fun s => s.currentWorkflow.isSome) = true ∧
    (Dashboard.scenarioTrace.getLastD Dashboard.initialState).currentWorkflow = none ∧
    (Dashboard.scenarioTrace.getLastD Dashboard.initialState).agents.all
        (fun a => a.status == Dashboard.Status.idle) = true := by
  decide

/-- C2 counterexample: for the two chunks `"ab"` and `"cd\n"` — one line
split across a chunk boundary — the framer emits the two lines `"ab"` and
`"cd"`, and no reinsertion of newlines between or after them reproduces
the original stream `"abcd\n"`. -/
theorem framer_roundtrip_fails :
    LogsStream.framedLines [['a', 'b'], ['c', 'd', '\n']] = [['a', 'b'], ['c', 'd']] ∧
    LogsStream.streamBytes [['a', 'b'], ['c', 'd', '\n']] = ['a', 'b', 'c', 'd', '\n'] ∧
    LogsStream.rejoinTerminated (LogsStream.framedLines [['a', 'b'], ['c', 'd', '\n']])
        ≠ LogsStream.streamBytes [['a', 'b'], ['c', 'd', '\n']] ∧
    LogsStream.rejoinSeparated (LogsStream.framedLines [['a', 'b'], ['c', 'd', '\n']])
        ≠ LogsStream.streamBytes [['a', 'b'], ['c', 'd', '\n']] := by
  decide

namespace LogsStream

/-- Splitting a newline-free fragment followed by a newline peels off
exactly that fragment. -/
theorem splitLines_append_newline (l rest : List Char) (h : '\n' ∉ l) :
    splitLines (l ++ '\n' :: rest) = l :: splitLines rest := by
  induction l with
  | nil => simp [splitLines]
  | cons c l ih =>
    have hc : c ≠ '\n' := fun hec => h (hec ▸ List.mem_cons_self c l)
    have hl : '\n' ∉ l := fun hm => h (List.mem_cons_of_mem c hm)
    simp [splitLines, hc, ih hl]

/-- Splitting a chunk made of newline-terminated fragments yields the
fragments followed by one empty fragment, provided no fragment contains a
newline. -/
theorem splitLines_rejoinTerminated (ls : List (List Char))
    (h : ∀ l ∈ ls, '\n' ∉ l) :
    splitLines (rejoinTerminated ls) = ls ++ [[]] := by
  induction ls with
  | nil => simp [rejoinTerminated, splitLines]
  | cons l ls ih =>
    have hl : '\n' ∉ l := h l (List.mem_cons_self l ls)
    have hls : ∀ x ∈ ls, '\n' ∉ x := fun x hx => h x (List.mem_cons_of_mem l hx)
    have : rejoinTerminated (l :: ls) = l ++ '\n' :: rejoinTerminated ls := by
      simp [rejoinTerminated]
    rw [this, splitLines_append_newline l _ hl, ih hls]
    simp

/-- The per-chunk splitter recovers the fragments of a well-formed
newline-terminated chunk exactly. -/
theorem chunkLines_rejoinTerminated (ls : List (List Char))
    (h : ∀ l ∈ ls, ¬ isBlank l ∧ '\n' ∉ l) :
    chunkLines (rejoinTerminated ls) = ls := by
  unfold chunkLines
  rw [splitLines_rejoinTerminated ls (fun l hl => (h l hl).2)]
  rw [List.filter_append]
  have hempty : List.filter (fun l => !isBlank l) [([] : List Char)] = [] := by
    simp [isBlank]
  rw [hempty, List.append_nil]
  exact List.filter_eq_self.mpr (fun l hl => by simp [(h l hl).1])

/-- `rejoinTerminated` distributes over list append. -/
theorem rejoinTerminated_append (a b : List (List Char)) :
    rejoinTerminated (a ++ b) = rejoinTerminated a ++ rejoinTerminated b := by
  simp [rejoinTerminated]

end LogsStream

/-- C2 amended: the framer splits each chunk on newlines independently,
discarding whitespace-only fragments, with no buffering across chunks —
so the round trip fails when a line spans a chunk boundary — but for
chunk sequences in which every chunk is a concatenation of
newline-terminated, non-blank, newline-free lines, reinserting a newline
after each framed line reproduces the original stream exactly. -/
theorem framer_roundtrip_for_terminated_chunks (chunks : List (List Char))
    (h : ∀ c ∈ chunks, LogsStream.goodChunk c) :
    LogsStream.rejoinTerminated (LogsStream.framedLines chunks) =
      LogsStream.streamBytes chunks := by
  induction chunks with
  | nil => rfl
  | cons c cs ih =>
    obtain ⟨ls, hc, hls⟩ := h c (List.mem_cons_self c cs)
    have hcs : ∀ x ∈ cs, LogsStream.goodChunk x := fun x hx => h x (List.mem_cons_of_mem c hx)
    have hframed : LogsStream.framedLines (c :: cs) =
        LogsStream.chunkLines c ++ LogsStream.framedLines cs := by
      simp [LogsStream.framedLines]
    rw [hframed, LogsStream.rejoinTerminated_append, ih hcs, hc,
      LogsStream.chunkLines_rejoinTerminated ls hls]
    rfl

/-- C2 amended, witness: the single well-formed chunk `"hi\n"` round
trips exactly. -/
theorem framer_roundtrip_for_terminated_chunks_w :
    LogsStream.rejoinTerminated (LogsStream.framedLines [['h', 'i', '\n']]) =
      LogsStream.streamBytes [['h', 'i', '\n']] := by
  refine framer_roundtrip_for_terminated_chunks [['h', 'i', '\n']] ?_
  intro c hc
  simp only [List.mem_singleton] at hc
  subst hc
  exact ⟨[['h', 'i']], by decide, by decide⟩

/-- C5 counterexample: the incident-listing read answers a *missing* file
with an error flag (success false) instead of treating it as a plain
zero-record read, while the statistics read answers a file with a
*malformed* line with zero records and no error flag at all, instead of
failing the read with a reportable error. -/
theorem incident_read_error_split :
    (Stats.incidentsGET none).success = false ∧
    (Stats.incidentsGET none).errorMsg = some "Failed to read incident history" ∧
    Stats.readIncidents (some [none]) = [] ∧
    (Stats.statsGET 0 (some [none])).success = true ∧
    (Stats.statsGET 0 (some [none])).errorMsg = none :=
  ⟨rfl, rfl, rfl, rfl, rfl⟩

/-- C5 amended: the incident-listing read surfaces both a missing file
and a malformed line as an empty result with an error flag, and on
success returns the fully parsed records sorted by detection time
descending; the statistics read treats a missing file as zero records and
also silently treats a file with a malformed line as zero records with no
error flag; neither read ever crashes the caller or returns a partially
parsed subset of the records. -/
theorem incident_reads_whole_or_empty (file : Stats.RecordFile) :
    Stats.readIncidents file = (Stats.fullParse file).getD [] ∧
    (∀ records, Stats.fullParse file = some records →
        Stats.incidentsGET file =
          ⟨true, Stats.sortIncidents records, (Stats.sortIncidents records).length, none⟩ ∧
        (Stats.incidentsGET file).data.Perm records ∧
        List.Sorted Stats.detectedDesc (Stats.incidentsGET file).data) ∧
    (Stats.fullParse file = none →
        Stats.incidentsGET file = ⟨false, [], 0, some "Failed to read incident history"⟩) ∧
    (∀ now : Int, (Stats.statsGET now file).success = true ∧
        (Stats.statsGET now file).errorMsg = none) := by
  refine ⟨?_, ?_, ?_, fun now => ⟨rfl, rfl⟩⟩
  · cases file with
    | none => rfl
    | some lines =>
      cases h : Stats.parseAll lines <;>
        simp [Stats.readIncidents, Stats.fullParse, h]
  · intro records hrec
    cases file with
    | none => simp [Stats.fullParse] at hrec
    | some lines =>
      have hrec2 : Stats.parseAll lines = some records := hrec
      refine ⟨by simp [Stats.incidentsGET, hrec2], ?_, ?_⟩
      · simpa [Stats.incidentsGET, hrec2, Stats.sortIncidents]
          using List.perm_insertionSort Stats.detectedDesc records
      · simpa [Stats.incidentsGET, hrec2, Stats.sortIncidents]
          using List.sorted_insertionSort Stats.detectedDesc records
  · intro hnone
    cases file with
    | none => rfl
    | some lines =>
      have hnone2 : Stats.parseAll lines = none := hnone
      simp [Stats.incidentsGET, hnone2]

/-- C5 amended, witness: an existing, fully well-formed but empty record
file is read as zero records with a successful listing response. -/
theorem incident_reads_whole_or_empty_w :
    Stats.readIncidents (some []) = [] ∧
    Stats.incidentsGET (some []) = ⟨true, [], 0, none⟩ :=
  ⟨by simpa using (incident_reads_whole_or_empty (some [])).1,
   by simpa using ((incident_reads_whole_or_empty (some [])).2.1 [] rfl).1⟩

/-- C10: `updateAgentStatus` is a frame-respecting point update — every
entry whose id differs from the target id is returned completely
unchanged (same status, task, last-update stamp and output), and the
entry whose id matches is exactly the merge of the given updates, stamped
with the fresh `lastUpdate` time. -/
theorem updateAgentStatus_frame (agents : List Dashboard.AgentStatus) (agentId : String)
    (u : Dashboard.AgentUpdates) (now : String) (i : Nat) (a : Dashboard.AgentStatus)
    (h : agents[i]? = some a) :
    (Dashboard.updateAgentStatus agents agentId u now)[i]? =
      some (if a.id = agentId then Dashboard.applyUpdates a u now else a) ∧
    (a.id ≠ agentId → (Dashboard.updateAgentStatus agents agentId u now)[i]? = some a) ∧
    (Dashboard.applyUpdates a u now).lastUpdate = some now := by
  refine ⟨?_, fun hne => ?_, rfl⟩
  · simp [Dashboard.updateAgentStatus, List.getElem?_map, h]
  · simp [Dashboard.updateAgentStatus, List.getElem?_map, h, hne]

/-- C10 witness: updating the executor leaves the supervisor entry (index
0) byte-for-byte unchanged. -/
theorem updateAgentStatus_frame_w :
    (Dashboard.updateAgentStatus Dashboard.initialAgents "executor" {} "T")[0]? =
      some ⟨"supervisor", "Supervisor Agent", .idle,
        some "Monitoring server health...", none, []⟩ :=
  (updateAgentStatus_frame Dashboard.initialAgents "executor" {} "T" 0
    ⟨"supervisor", "Supervisor Agent", .idle, some "Monitoring server health...", none, []⟩
    rfl).2.1 (by decide)

namespace Dashboard

/-- The merge never changes an agent's id when the update object carries
none (as every update in the component does). -/
theorem applyUpdates_id (a : AgentStatus) (u : AgentUpdates) (now : String)
    (h : u.id = none) : (applyUpdates a u now).id = a.id := by
  simp [applyUpdates, h]

/-- `updateAgentStatus` preserves the list of agent ids. -/
theorem updateAgentStatus_map_id (agents : List AgentStatus) (aid : String)
    (u : AgentUpdates) (now : String) (h : u.id = none) :
    (updateAgentStatus agents aid u now).map (·.id) = agents.map (·.id) := by
  induction agents with
  | nil => rfl
  | cons a l ih =>
    simp only [updateAgentStatus, List.map_cons] at ih ⊢
    rw [ih]
    congr 1
    split
    · exact applyUpdates_id a u now h
    · rfl

/-- Every branch of the raw-message detector preserves the list of agent
ids. -/
theorem detect_agents_ids (now msg : String) (s : DashState) :
    ((detectAgentFromRawMessage now msg s).1).agents.map (·.id) = s.agents.map (·.id) := by
  unfold detectAgentFromRawMessage
  split_ifs <;> simp [updateAgentStatus_map_id, addServerLog]

/-- Every scheduled delayed transition preserves the list of agent ids. -/
theorem runDelayed_agents_ids (now : String) (d : Delayed) (s : DashState) :
    ((runDelayed now d s).1).agents.map (·.id) = s.agents.map (·.id) := by
  cases d <;> simp [runDelayed, updateAgentStatus_map_id, List.map_map]

/-- Every dashboard mutation preserves the list of agent ids. -/
theorem applyOp_agents_ids (s : DashState) (op : DashOp) :
    (applyOp s op).agents.map (·.id) = s.agents.map (·.id) := by
  cases op with
  | raw now msg => exact detect_agents_ids now msg s
  | delayed now d => exact runDelayed_agents_ids now d s
  | stopReset => simp [applyOp, List.map_map]

/-- Sequences of mutations preserve the list of agent ids. -/
theorem runOps_agents_ids (ops : List DashOp) : ∀ s : DashState,
    (runOps s ops).agents.map (·.id) = s.agents.map (·.id) := by
  induction ops with
  | nil => intro s; rfl
  | cons op ops ih =>
    intro s
    have h : runOps s (op :: ops) = runOps (applyOp s op) ops := rfl
    rw [h, ih, applyOp_agents_ids]

/-- A status value coincides with exactly one of the four enumerators. -/
theorem status_count_one (st : Status) :
    ([Status.idle, Status.working, Status.completed, Status.error].count st) = 1 := by
  cases st <;> rfl

end Dashboard

/-- C8: in every state reachable from the initial state by classified
transitions, scheduled transitions and resets, the agent set is exactly
the three fixed roles supervisor, executor and evaluator, and each
agent's status coincides with exactly one of idle, working, completed and
error. -/
theorem agent_set_invariant (ops : List Dashboard.DashOp) :
    (Dashboard.runOps Dashboard.initialState ops).agents.map (·.id)
        = ["supervisor", "executor", "evaluator"] ∧
    ∀ a ∈ (Dashboard.runOps Dashboard.initialState ops).agents,
      ([Dashboard.Status.idle, Dashboard.Status.working,
        Dashboard.Status.completed, Dashboard.Status.error].count a.status) = 1 := by
  refine ⟨?_, fun a _ => Dashboard.status_count_one a.status⟩
  rw [Dashboard.runOps_agents_ids]
  rfl

/-- C8 witness: the invariant instantiated at the empty mutation sequence
and the initial supervisor entry. -/
theorem agent_set_invariant_w :
    (Dashboard.runOps Dashboard.initialState []).agents.map (·.id)
        = ["supervisor", "executor", "evaluator"] ∧
    ([Dashboard.Status.idle, Dashboard.Status.working, Dashboard.Status.completed,
        Dashboard.Status.error].count
      (⟨"supervisor", "Supervisor Agent", .idle, some "Monitoring server health...", none, []⟩ :
        Dashboard.AgentStatus).status) = 1 :=
  ⟨(agent_set_invariant []).1, (agent_set_invariant []).2 _ (by decide)⟩

namespace CrashTest

/-- The completed-milestone accumulator of the status loop collects
exactly the milestones whose offset is at most the elapsed time. -/
theorem crashLoop_fst (e : Nat) (l : List CrashMilestone) : ∀ comp nx,
    (List.foldl (crashStep e) (comp, nx) l).1
      = comp ++ l.filter (fun c => decide (c.time ≤ e)) := by
  induction l with
  | nil => intro comp nx; simp
  | cons c l ih =>
    intro comp nx
    rw [List.foldl_cons]
    by_cases h : e ≥ c.time
    · have hstep : crashStep e (comp, nx) c = (comp ++ [c], nx) := by
        simp [crashStep, h]
      have hd : decide (c.time ≤ e) = true := by simpa using h
      rw [hstep, ih, List.filter_cons]
      simp [hd]
    · have hd : decide (c.time ≤ e) = false := by simpa using h
      rw [List.filter_cons]
      cases nx with
      | none =>
        have hstep : crashStep e (comp, none) c = (comp, some c) := by
          simp [crashStep, h]
        rw [hstep, ih]
        simp [hd]
      | some x =>
        have hstep : crashStep e (comp, some x) c = (comp, some x) := by
          simp [crashStep, h]
        rw [hstep, ih]
        simp [hd]

/-- The next-milestone accumulator of the status loop picks the first
milestone whose offset exceeds the elapsed time (and keeps an already
picked one). -/
theorem crashLoop_snd (e : Nat) (l : List CrashMilestone) : ∀ comp nx,
    (List.foldl (crashStep e) (comp, nx) l).2
      = (match nx with
         | some x => some x
         | none => l.find? (fun c => decide (e < c.time))) := by
  induction l with
  | nil => intro comp nx; cases nx <;> simp
  | cons c l ih =>
    intro comp nx
    rw [List.foldl_cons]
    by_cases h : e ≥ c.time
    · have hstep : crashStep e (comp, nx) c = (comp ++ [c], nx) := by
        simp [crashStep, h]
      have hd : decide (e < c.time) = false := by simp; omega
      rw [hstep, ih]
      cases nx with
      | none =>
        rw [List.find?_cons_of_neg (p := fun c => decide (e < c.time)) l (by simp [hd])]
      | some x => rfl
    · have hd : decide (e < c.time) = true := by simp; omega
      cases nx with
      | none =>
        have hstep : crashStep e (comp, none) c = (comp, some c) := by
          simp [crashStep, h]
        rw [hstep, ih, List.find?_cons_of_pos (p := fun c => decide (e < c.time)) l hd]
      | some x =>
        have hstep : crashStep e (comp, some x) c = (comp, some x) := by
          simp [crashStep, h]
        rw [hstep, ih]

/-- In a schedule sorted by offset, the first milestone whose offset
exceeds the elapsed time is the earliest such milestone. -/
theorem find?_first_exceeding (e : Nat) (l : List CrashMilestone)
    (hsorted : l.Pairwise (fun a b => a.time ≤ b.time)) (c : CrashMilestone)
    (hc : l.find? (fun x => decide (e < x.time)) = some c) :
    e < c.time ∧ ∀ c2 ∈ l, e < c2.time → c.time ≤ c2.time := by
  induction l with
  | nil => simp at hc
  | cons h t ih =>
    rw [List.pairwise_cons] at hsorted
    by_cases hp : e < h.time
    · have hd : (fun x : CrashMilestone => decide (e < x.time)) h = true := by
        simpa using hp
      rw [List.find?_cons_of_pos (p := fun x : CrashMilestone => decide (e < x.time)) t hd] at hc
      obtain rfl : h = c := by injection hc
      refine ⟨hp, fun c2 hc2 _ => ?_⟩
      rcases List.mem_cons.mp hc2 with rfl | hmem
      · exact le_refl _
      · exact hsorted.1 c2 hmem
    · have hd : ¬ (fun x : CrashMilestone => decide (e < x.time)) h = true := by
        simpa using hp
      rw [List.find?_cons_of_neg (p := fun x : CrashMilestone => decide (e < x.time)) t hd] at hc
      obtain ⟨g1, g2⟩ := ih hsorted.2 hc
      refine ⟨g1, fun c2 hc2 hlt => ?_⟩
      rcases List.mem_cons.mp hc2 with rfl | hmem
      · exact absurd hlt hp
      · exact g2 c2 hmem hlt

end CrashTest

/-- C6: for every elapsed time, the crash-test status computes — by pure
arithmetic over the fixed milestone schedule — the completed milestones
as exactly those whose offset is at most the elapsed time, the next
milestone as the earliest one whose offset exceeds it (none when all are
completed), and that milestone's `timeUntil` as its offset minus the
elapsed time. -/
theorem crash_status_pure_arithmetic (e : Nat) :
    (CrashTest.crashStatus e).completedCrashes
        = CrashTest.crashSchedule.filter (fun c => decide (c.time ≤ e)) ∧
    (CrashTest.crashStatus e).nextCrash
        = CrashTest.crashSchedule.find? (fun c => decide (e < c.time)) ∧
    (∀ c, (CrashTest.crashStatus e).nextCrash = some c →
        e < c.time ∧ (∀ c2 ∈ CrashTest.crashSchedule, e < c2.time → c.time ≤ c2.time) ∧
        (CrashTest.crashStatus e).nextTimeUntil = some ((c.time : Int) - (e : Int))) ∧
    ((CrashTest.crashStatus e).nextCrash = none ↔
      (CrashTest.crashStatus e).completedCrashes = CrashTest.crashSchedule) := by
  have h1 : (CrashTest.crashStatus e).completedCrashes
      = CrashTest.crashSchedule.filter (fun c => decide (c.time ≤ e)) :=
    CrashTest.crashLoop_fst e CrashTest.crashSchedule [] none
  have h2 : (CrashTest.crashStatus e).nextCrash
      = CrashTest.crashSchedule.find? (fun c => decide (e < c.time)) :=
    CrashTest.crashLoop_snd e CrashTest.crashSchedule [] none
  have hmap : (CrashTest.crashStatus e).nextTimeUntil
      = (CrashTest.crashStatus e).nextCrash.map
          (fun c => (c.time : Int) - (e : Int)) := rfl
  refine ⟨h1, h2, fun c hc => ?_, ?_⟩
  · have hs : CrashTest.crashSchedule.Pairwise (fun a b => a.time ≤ b.time) := by decide
    have hfind := h2 ▸ hc
    obtain ⟨g1, g2⟩ := CrashTest.find?_first_exceeding e CrashTest.crashSchedule hs c hfind
    exact ⟨g1, g2, by rw [hmap, hc]; rfl⟩
  · rw [h1, h2]
    constructor
    · intro hn
      have hall := List.find?_eq_none.mp hn
      refine List.filter_eq_self.mpr (fun c hcmem => ?_)
      have := hall c hcmem
      simp at this ⊢
      omega
    · intro hf
      refine List.find?_eq_none.mpr (fun c hcmem => ?_)
      have := List.filter_eq_self.mp hf c hcmem
      simp at this ⊢
      omega

/-- C6 witness: at 20 seconds elapsed the next milestone is the 60-second
process kill, 40 seconds away. -/
theorem crash_status_pure_arithmetic_w :
    20 < (⟨60, "kill", "Process Kill"⟩ : CrashTest.CrashMilestone).time ∧
    (CrashTest.crashStatus 20).nextTimeUntil = some 40 := by
  have h := (crash_status_pure_arithmetic 20).2.2.1 ⟨60, "kill", "Process Kill"⟩ (by decide)
  refine ⟨h.1, ?_⟩
  rw [h.2.2]
  norm_num
